import Mathlib

/-!
Verification of the self-improving CAPTCHA-solving subsystem of AutoStepSMMO.

The definitions below are a shallow embedding of the Python sources:
* `auto_captcha_learner.py` — `AutoCaptchaLearner.record_attempt`,
  `_auto_label_with_clip`, `_auto_label_from_success`, `_check_auto_training`,
  `_trigger_background_training`;
* `simplemmo_bot.py` — `SimpleMMOBot._determine_captcha_model`,
  `_record_captcha_result`, and the scoring/selection portion of `_solve_captcha`.

Conventions of the embedding:
* CLIP similarity logits are arbitrary rationals; the softmax `exp` is
  abstracted as a parameter `e : ℚ → ℚ` of which only strict positivity is
  ever used (`Real.exp` is strictly positive), keeping all definitions
  computable.
* Timestamps are seconds as `Int`; `(datetime.now() - last).total_seconds()
  / 3600 < 1` is equivalently `now - last < 3600`.
* The on-disk `metadata.json` dict is the structure `Metadata`; a field of
  type `Option _` is `none` exactly when the corresponding key is absent
  from the dict.
-/

namespace AutoStep

/-- The `metadata.json` record written for one CAPTCHA attempt.  The keys
`question`, `button_clicked`, `success`, `correct_answer`, `timestamp` and
`datetime` are written by `record_attempt`; `auto_labeled`,
`auto_label_conf`, `auto_label_tool` and `labeled_at` are only added by the
labeling passes.  No code path in the repository ever writes a
`label_source` key, so that field is `none` in every reachable record. -/
structure Metadata where
  question : String
  button_clicked : Nat
  success : Bool
  correct_answer : Option Nat
  timestamp : String
  datetime : String
  auto_labeled : Option Bool := none
  auto_label_conf : Option ℚ := none
  auto_label_tool : Option String := none
  labeled_at : Option String := none
  label_source : Option String := none
  deriving DecidableEq

/-- The metadata dict created at the top of `AutoCaptchaLearner.record_attempt`:
`correct_answer` is `button_clicked` for successes and `None` for failures. -/
def recordMetadata (question : String) (button_clicked : Nat) (success : Bool)
    (ts iso : String) : Metadata :=
  { question := question
    button_clicked := button_clicked
    success := success
    correct_answer := if success then some button_clicked else none
    timestamp := ts
    datetime := iso }

/-! ### Embedding Scorer (`softmax(dim=0)` then `mean(dim=1)`)

`logits_per_image` has shape `[num_images, num_texts]`; `softmax(dim=0)`
normalises each text's column across the images, and `mean(dim=1)` averages
the per-text win-probabilities for each image.  We represent the matrix
column-wise: `cols` is one list per text prompt, each of length `n` (the
number of images). -/

/-- Softmax of one text's column across the candidate images.  `e` abstracts
`exp`; only `0 < e x` is used. -/
def softmaxCol (e : ℚ → ℚ) (col : List ℚ) : List ℚ :=
  col.map (fun x => e x / (col.map e).sum)

/-- `avg_probs`: for each image index, the mean over all text variations of
that image's softmax win-probability (`probs_per_text.mean(dim=1)`). -/
def avgProbs (e : ℚ → ℚ) (n : Nat) (cols : List (List ℚ)) : List ℚ :=
  List.ofFn (fun i : Fin n =>
    (cols.map (fun c => (softmaxCol e c).getD i 0)).sum / (cols.length : ℚ))

/-! ### Score ranking (`_auto_label_with_clip` lines 206–213)

`scores = [(idx + 1, float(avg_probs[idx]) * 100) for idx in range(n)]`
followed by `scores.sort(key=lambda x: x[1], reverse=True)`. -/

/-- One-based button/score pairs, scores as percentages. -/
def scorePairs (avgs : List ℚ) : List (Nat × ℚ) :=
  (List.range avgs.length).map (fun idx => (idx + 1, avgs.getD idx 0 * 100))

/-- Descending-by-score order used by `scores.sort(..., reverse=True)`. -/
def scoreDescRel (a b : Nat × ℚ) : Prop := b.2 ≤ a.2

instance : DecidableRel scoreDescRel :=
  fun a b => inferInstanceAs (Decidable (b.2 ≤ a.2))

instance : IsTotal (Nat × ℚ) scoreDescRel :=
  ⟨fun a b => le_total b.2 a.2⟩

instance : IsTrans (Nat × ℚ) scoreDescRel :=
  ⟨fun _ _ _ h1 h2 => le_trans h2 h1⟩

/-- The score list sorted descending by confidence. -/
def rankScores (avgs : List ℚ) : List (Nat × ℚ) :=
  List.insertionSort scoreDescRel (scorePairs avgs)

/-! ### Immediate Auto-Labeler (`_auto_label_with_clip`) -/

/-- The labeling step of `AutoCaptchaLearner._auto_label_with_clip` after the
images have been loaded and scored: rank the averaged scores, compute the
margin over the runner-up, and write `correct_answer` into the metadata only
when the confidence gate (`best_conf >= 100/n + 10` and `margin >= 5`)
passes.  Returns the (possibly updated) metadata and whether a label was
written.  The code stores `round(best_conf, 2)`; we keep the exact value,
which no claim depends on. -/
def autoLabelWithClip (meta : Metadata) (avgs : List ℚ) (labeledAt : String) :
    Metadata × Bool :=
  if avgs.length = 0 then (meta, false)
  else
    let ranked := rankScores avgs
    let best := ranked.headD (0, 0)
    let margin := if 1 < ranked.length then best.2 - (ranked.getD 1 (0, 0)).2 else best.2
    let randomBaseline : ℚ := 100 / (avgs.length : ℚ)
    let minConf : ℚ := randomBaseline + 10
    let minMargin : ℚ := 5
    if best.2 < minConf ∨ margin < minMargin then (meta, false)
    else
      ({ meta with
          correct_answer := some best.1
          auto_labeled := some true
          auto_label_conf := some best.2
          auto_label_tool := some "base-clip-realtime"
          labeled_at := some labeledAt }, true)

/-! ### Retroactive Labeler (`_auto_label_from_success`) -/

/-- Question normalization used for matching: `q.lower().strip()`. -/
def normalizeQ (s : String) : String := s.toLower.trim

/-- The per-record body of the loop in `_auto_label_from_success`: skip an
already-labeled record, otherwise label it with the success's button when
the normalized questions match. -/
def retroLabelOne (question : String) (correctButton : Nat) (labeledAt : String)
    (m : Metadata) : Metadata :=
  if m.correct_answer ≠ none then m
  else if normalizeQ m.question = normalizeQ question then
    { m with
        correct_answer := some correctButton
        auto_labeled := some true
        labeled_at := some labeledAt }
  else m

/-- `_auto_label_from_success` applied to the failure partition. -/
def autoLabelFromSuccess (question : String) (correctButton : Nat)
    (labeledAt : String) (failures : List Metadata) : List Metadata :=
  failures.map (retroLabelOne question correctButton labeledAt)

/-- `new_labels`: how many failure records the retroactive pass labels. -/
def retroNewLabels (question : String) (failures : List Metadata) : Nat :=
  (failures.filter
    (fun m => m.correct_answer.isNone && (normalizeQ m.question == normalizeQ question))).length

/-! ### Learning stats and the Training Trigger -/

/-- The `learning_stats.json` record. `last_training` is the timestamp of the
last training run in seconds (`none` when no training has ever run). -/
structure Stats where
  total_attempts : Nat
  total_successes : Nat
  total_failures : Nat
  auto_labeled : Nat
  last_training : Option Int
  training_count : Nat
  labels_since_training : Nat
  deriving DecidableEq

/-- The default stats created when `learning_stats.json` is absent. -/
def initialStats : Stats :=
  { total_attempts := 0, total_successes := 0, total_failures := 0
    auto_labeled := 0, last_training := none, training_count := 0
    labels_since_training := 0 }

/-- `AutoCaptchaLearner._trigger_background_training`: when the training
script exists, a detached job is spawned and — without waiting for, or ever
learning, its outcome — `last_training`, `training_count` and
`labels_since_training` are updated immediately.  When the script is
missing, nothing is updated.  Returns the new stats and whether a job was
launched. -/
def triggerBackgroundTraining (now : Int) (scriptExists : Bool) (s : Stats) :
    Stats × Bool :=
  if scriptExists then
    ({ s with
        last_training := some now
        training_count := s.training_count + 1
        labels_since_training := 0 }, true)
  else (s, false)

/-- `AutoCaptchaLearner._check_auto_training`: require at least 20 labels
since the last training, and — when a last-training timestamp exists — at
least one hour (3600 s) elapsed since it (`hours_since < 1` returns early,
which over exact arithmetic is `now - t < 3600`). -/
def checkAutoTraining (now : Int) (scriptExists : Bool) (s : Stats) :
    Stats × Bool :=
  if s.labels_since_training < 20 then (s, false)
  else
    match s.last_training with
    | some t =>
        if now - t < 3600 then (s, false)
        else triggerBackgroundTraining now scriptExists s
    | none => triggerBackgroundTraining now scriptExists s

/-! ### Attempt Store and `record_attempt` -/

/-- The persisted state of the learner: the two attempt partitions plus the
rolling stats. -/
structure Store where
  successes : List Metadata
  failures : List Metadata
  stats : Stats
  deriving DecidableEq

/-- Stat updates at the top of `record_attempt`: `total_attempts += 1` and
exactly one of `total_successes` / `total_failures` incremented. -/
def statsAfterRecord (success : Bool) (s : Stats) : Stats :=
  { s with
      total_attempts := s.total_attempts + 1
      total_successes := s.total_successes + (if success then 1 else 0)
      total_failures := s.total_failures + (if success then 0 else 1) }

/-- Stat effects of `_auto_label_from_success`: when `new_labels > 0`, bump
`auto_labeled` and `labels_since_training` by it and run the training
check. -/
def successPathStats (question : String) (failures : List Metadata)
    (now : Int) (scriptExists : Bool) (s : Stats) : Stats :=
  if 0 < retroNewLabels question failures then
    (checkAutoTraining now scriptExists
      { s with
          auto_labeled := s.auto_labeled + retroNewLabels question failures
          labels_since_training :=
            s.labels_since_training + retroNewLabels question failures }).1
  else s

/-- Stat effects of `_auto_label_with_clip`: when a label was written, bump
`auto_labeled` and `labels_since_training` by one and run the training
check. -/
def failPathStats (wrote : Bool) (now : Int) (scriptExists : Bool)
    (s : Stats) : Stats :=
  if wrote then
    (checkAutoTraining now scriptExists
      { s with
          auto_labeled := s.auto_labeled + 1
          labels_since_training := s.labels_since_training + 1 }).1
  else s

/-- One call to `AutoCaptchaLearner.record_attempt`.  `avgs` are the CLIP
averaged win-probabilities for the four stored images (used only on the
failure path); `now` is the wall clock in seconds; `ts`/`iso` the formatted
timestamps; `scriptExists` whether `train_captcha_model.py` is present.
A success appends the self-labeled attempt to the success partition and
runs the Retroactive Labeler over the failure partition; a failure runs the
Immediate Auto-Labeler on the fresh record and appends it to the failure
partition. -/
def recordAttempt (question : String) (button_clicked : Nat) (success : Bool)
    (avgs : List ℚ) (ts iso : String) (now : Int) (scriptExists : Bool)
    (st : Store) : Store :=
  let stats1 := statsAfterRecord success st.stats
  let meta := recordMetadata question button_clicked success ts iso
  if success then
    { successes := st.successes ++ [meta]
      failures := autoLabelFromSuccess question button_clicked iso st.failures
      stats := successPathStats question st.failures now scriptExists stats1 }
  else
    let labeled := autoLabelWithClip meta avgs iso
    { successes := st.successes
      failures := st.failures ++ [labeled.1]
      stats := failPathStats labeled.2 now scriptExists stats1 }

/-- Arguments of one `record_attempt` call, for reasoning about call
sequences. -/
structure CallSpec where
  question : String
  button_clicked : Nat
  success : Bool
  avgs : List ℚ
  ts : String
  iso : String
  now : Int
  scriptExists : Bool

/-- A sequence of `record_attempt` calls. -/
def recordMany (calls : List CallSpec) (st : Store) : Store :=
  calls.foldl
    (fun acc c =>
      recordAttempt c.question c.button_clicked c.success c.avgs c.ts c.iso
        c.now c.scriptExists acc) st

/-! ### Model Selection Policy (`simplemmo_bot.py`) -/

/-- The two CLIP variants. -/
inductive Variant
  | base
  | finetuned
  deriving DecidableEq

/-- Smart-fallback state: `current_captcha_model` (`None` until first use)
plus the two consecutive-failure counters. -/
structure FallbackState where
  current : Option Variant
  baseFailures : Nat
  finetunedFailures : Nat
  deriving DecidableEq

/-- `SimpleMMOBot._determine_captcha_model`: chooses the variant for the next
solve and (under `smart_fallback`) performs the threshold-triggered switch,
resetting the switched-away variant's counter. -/
def determineCaptchaModel (strategy : String) (threshold : Nat)
    (finetunedExists useFinetunedCfg : Bool) (s : FallbackState) :
    Variant × FallbackState :=
  if ¬finetunedExists then (Variant.base, s)
  else if strategy = "base_only" then (Variant.base, s)
  else if strategy = "finetuned_only" then (Variant.finetuned, s)
  else if strategy = "smart_fallback" then
    let s1 := if s.current = none then { s with current := some Variant.finetuned } else s
    let s2 :=
      if s1.current = some Variant.base ∧ threshold ≤ s1.baseFailures then
        { s1 with current := some Variant.finetuned, baseFailures := 0 }
      else if s1.current = some Variant.finetuned ∧ threshold ≤ s1.finetunedFailures then
        { s1 with current := some Variant.base, finetunedFailures := 0 }
      else s1
    (s2.current.getD Variant.base, s2)
  else ((if useFinetunedCfg then Variant.finetuned else Variant.base), s)

/-- `SimpleMMOBot._record_captcha_result`: a success resets the used
variant's consecutive-failure counter; a failure increments it. -/
def recordCaptchaResult (success : Bool) (modelUsed : Variant)
    (s : FallbackState) : FallbackState :=
  if success then
    match modelUsed with
    | Variant.base => { s with baseFailures := 0 }
    | Variant.finetuned => { s with finetunedFailures := 0 }
  else
    match modelUsed with
    | Variant.base => { s with baseFailures := s.baseFailures + 1 }
    | Variant.finetuned => { s with finetunedFailures := s.finetunedFailures + 1 }

/-! ### Solver decision portion of `SimpleMMOBot._solve_captcha`

After `avg_probs` is computed, each button gets `score = int(avg * 100)`
(truncation; the probabilities are non-negative so this is the floor), the
best button is tracked with `if score > best_score` starting from
`best_score = 0, best_idx = -1`, and the margin is the gap between the two
top scores of the descending-sorted list (`100` when fewer than two).  The
solver then always clicks the tracked best button; its only confidence
signals are a low-confidence warning (`best_score < 40`) and a small-margin
warning (`margin < 8`). -/

/-- `int(float(avg_probs[i]) * 100)` for a non-negative probability. -/
def percentScore (p : ℚ) : Int := Int.floor (p * 100)

/-- The `for`-loop tracking `(best_score, best_idx)` with
`if score > best_score`, buttons numbered from `i + 1`. -/
def solveBestAux : Nat → List Int → Int × Int → Int × Int
  | _, [], st => st
  | i, sc :: rest, st =>
      solveBestAux (i + 1) rest (if st.1 < sc then (sc, (i : Int) + 1) else st)

/-- `(best_score, best_idx)` from the scores, starting at `(0, -1)`. -/
def solveBest (scores : List Int) : Int × Int := solveBestAux 0 scores (0, -1)

/-- Descending order on integer scores. -/
def intDescRel (a b : Int) : Prop := b ≤ a

instance : DecidableRel intDescRel :=
  fun a b => inferInstanceAs (Decidable (b ≤ a))

instance : IsTotal Int intDescRel := ⟨fun a b => le_total b a⟩

instance : IsTrans Int intDescRel := ⟨fun _ _ _ h1 h2 => le_trans h2 h1⟩

/-- Margin between the two top scores (`100` when fewer than two). -/
def solveMargin (scores : List Int) : Int :=
  let sorted := List.insertionSort intDescRel scores
  if 2 ≤ sorted.length then sorted.headD 0 - sorted.getD 1 0 else 100

/-- The decision data `_solve_captcha` derives from the averaged
probabilities.  There is no accept/decline flag in the source; the two
booleans are the logged warnings. -/
structure SolveOutcome where
  bestScore : Int
  bestIdx : Int
  margin : Int
  lowConfidence : Bool
  smallMargin : Bool
  deriving DecidableEq

/-- The scoring/selection portion of `SimpleMMOBot._solve_captcha`. -/
def solveCaptchaOutcome (avgs : List ℚ) : SolveOutcome :=
  let scores := avgs.map percentScore
  let best := solveBest scores
  let margin := solveMargin scores
  { bestScore := best.1
    bestIdx := best.2
    margin := margin
    lowConfidence := decide (best.1 < 40)
    smallMargin := decide (margin < 8) }

/-- Stated from the spec (§4.2), for comparison with the code: the Solver
accepts (trusts) the top choice exactly when
`best >= random_baseline + 10` (with 4 candidates, `best >= 35`) and
`margin >= 5`; otherwise it is said to flag the result as
`declined_confidently`. -/
def specSolverAccepts (best margin : Int) : Bool :=
  (25 + 10 ≤ best) && (5 ≤ margin)

/-! ### Model loading (`C9`)

`_auto_label_with_clip` keeps the CLIP instance in a class attribute and
loads only when the attribute is absent; the two solve paths
(`_solve_captcha`, `_solve_captcha_on_page`) call
`CLIPModel.from_pretrained` unconditionally on every invocation.  We count
`from_pretrained` executions. -/

/-- One `_auto_label_with_clip` call: load only when not yet cached; the
cache holds afterwards. -/
def clipLoadStep (cached : Bool) : Nat × Bool :=
  if cached then (0, true) else (1, true)

/-- Total loads performed by `n` consecutive `_auto_label_with_clip` calls
starting from cache state `cached`. -/
def clipLoadsAfter : Nat → Bool → Nat
  | 0, _ => 0
  | n + 1, cached =>
      let step := clipLoadStep cached
      step.1 + clipLoadsAfter n step.2

/-- One solve call executes `CLIPModel.from_pretrained` exactly once,
unconditionally (no cache is consulted or written). -/
def solveLoadsPerCall : Nat := 1

/-- Total fresh loads performed by `calls` consecutive solve calls. -/
def solveLoadsAfter (calls : Nat) : Nat := calls * solveLoadsPerCall

/-! ### Invariant predicates and concrete fixtures -/

/-- The labeling invariant of one record: a success attempt carries its
clicked button as `correct_answer`. -/
def GoodLabel (m : Metadata) : Prop :=
  m.success = true → m.correct_answer = some m.button_clicked

instance (m : Metadata) : Decidable (GoodLabel m) := by
  unfold GoodLabel; infer_instance

/-- The store-wide success-labeling invariant. -/
def SuccInv (st : Store) : Prop :=
  (∀ m ∈ st.successes, GoodLabel m) ∧ (∀ m ∈ st.failures, GoodLabel m)

instance (st : Store) : Decidable (SuccInv st) := by
  unfold SuccInv; infer_instance

/-- The counter invariant of the learning stats. -/
def CounterInv (s : Stats) : Prop :=
  s.total_attempts = s.total_successes + s.total_failures

instance (s : Stats) : Decidable (CounterInv s) := by
  unfold CounterInv; infer_instance

/-- A freshly recorded, unlabeled failure attempt on question `Cherry`. -/
def exampleMeta : Metadata := recordMetadata "Cherry" 2 false "ts" "iso"

/-- Averaged probabilities giving integer scores `[37, 27, 20, 16]`. -/
def c7Avgs : List ℚ := [37 / 100, 27 / 100, 1 / 5, 4 / 25]

/-- Averaged probabilities with a sub-percent tie at the top: candidate 2
has the strictly largest exact score (0.309 > 0.301), but both truncate to
the integer percentage 30. -/
def c6Avgs : List ℚ := [301 / 1000, 309 / 1000, 1 / 5, 19 / 100]

/-! ## Helper lemmas -/

theorem clipLoadsAfter_cached : ∀ n, clipLoadsAfter n true = 0
  | 0 => rfl
  | n + 1 => by simp [clipLoadsAfter, clipLoadStep, clipLoadsAfter_cached n]

theorem clipLoadsAfter_le_one (n : Nat) : clipLoadsAfter n false ≤ 1 := by
  cases n with
  | zero => simp [clipLoadsAfter]
  | succ n => simp [clipLoadsAfter, clipLoadStep, clipLoadsAfter_cached n]

theorem checkAutoTraining_core_counters (now : Int) (se : Bool) (s : Stats) :
    (checkAutoTraining now se s).1.total_attempts = s.total_attempts ∧
    (checkAutoTraining now se s).1.total_successes = s.total_successes ∧
    (checkAutoTraining now se s).1.total_failures = s.total_failures := by
  by_cases h1 : s.labels_since_training < 20
  · simp [checkAutoTraining, h1]
  · cases h : s.last_training with
    | none =>
        by_cases h2 : se <;>
          simp [checkAutoTraining, triggerBackgroundTraining, h, h1, h2]
    | some t =>
        by_cases h3 : now - t < 3600 <;> by_cases h2 : se <;>
          simp [checkAutoTraining, triggerBackgroundTraining, h, h1, h2, h3]

theorem successPathStats_counters (q : String) (fs : List Metadata) (now : Int)
    (se : Bool) (s : Stats) :
    (successPathStats q fs now se s).total_attempts = s.total_attempts ∧
    (successPathStats q fs now se s).total_successes = s.total_successes ∧
    (successPathStats q fs now se s).total_failures = s.total_failures := by
  unfold successPathStats
  split_ifs
  · exact checkAutoTraining_core_counters _ _ _
  · exact ⟨rfl, rfl, rfl⟩

theorem failPathStats_counters (w : Bool) (now : Int) (se : Bool) (s : Stats) :
    (failPathStats w now se s).total_attempts = s.total_attempts ∧
    (failPathStats w now se s).total_successes = s.total_successes ∧
    (failPathStats w now se s).total_failures = s.total_failures := by
  unfold failPathStats
  split_ifs
  · exact checkAutoTraining_core_counters _ _ _
  · exact ⟨rfl, rfl, rfl⟩

theorem recordAttempt_counters (question : String) (b : Nat) (success : Bool)
    (avgs : List ℚ) (ts iso : String) (now : Int) (se : Bool) (st : Store) :
    (recordAttempt question b success avgs ts iso now se st).stats.total_attempts
        = st.stats.total_attempts + 1 ∧
    (recordAttempt question b success avgs ts iso now se st).stats.total_successes
        = st.stats.total_successes + (if success then 1 else 0) ∧
    (recordAttempt question b success avgs ts iso now se st).stats.total_failures
        = st.stats.total_failures + (if success then 0 else 1) := by
  unfold recordAttempt
  cases success <;> simp [successPathStats_counters, failPathStats_counters, statsAfterRecord]

theorem solveBestAux_fst_le (l : List Int) :
    ∀ (i : Nat) (st : Int × Int), st.1 ≤ (solveBestAux i l st).1 := by
  induction l with
  | nil => intro i st; simp [solveBestAux]
  | cons sc rest ih =>
      intro i st
      by_cases h : st.1 < sc
      · calc st.1 ≤ sc := le_of_lt h
          _ = (if st.1 < sc then ((sc : Int), (i : Int) + 1) else st).1 := by simp [h]
          _ ≤ _ := ih (i + 1) _
      · calc st.1 = (if st.1 < sc then ((sc : Int), (i : Int) + 1) else st).1 := by simp [h]
          _ ≤ _ := ih (i + 1) _

theorem solveBestAux_mem_le (l : List Int) :
    ∀ (i : Nat) (st : Int × Int) (x : Int), x ∈ l → x ≤ (solveBestAux i l st).1 := by
  induction l with
  | nil => intro i st x hx; simp at hx
  | cons sc rest ih =>
      intro i st x hx
      rcases List.mem_cons.mp hx with hx | hx
      · subst hx
        simp only [solveBestAux]
        by_cases h : st.1 < x
        · rw [if_pos h]
          exact solveBestAux_fst_le rest (i + 1) ((x : Int), (i : Int) + 1)
        · rw [if_neg h]
          exact le_trans (le_of_not_lt h) (solveBestAux_fst_le rest (i + 1) st)
      · simp only [solveBestAux]
        exact ih (i + 1) _ x hx

/-- The tracked `best_score` dominates every score and the initial `0`. -/
theorem solveBest_max (scores : List Int) :
    (∀ x ∈ scores, x ≤ (solveBest scores).1) ∧ 0 ≤ (solveBest scores).1 := by
  constructor
  · intro x hx; exact solveBestAux_mem_le scores 0 (0, -1) x hx
  · exact solveBestAux_fst_le scores 0 (0, -1)

theorem solveBestAux_idx (l : List Int) : ∀ (i : Nat) (st : Int × Int),
    solveBestAux i l st = st ∨
      ∃ j, j < l.length ∧ (solveBestAux i l st).2 = ((i + j : Nat) : Int) + 1 ∧
        l.getD j 0 = (solveBestAux i l st).1 := by
  induction l with
  | nil => intro i st; exact Or.inl rfl
  | cons sc rest ih =>
      intro i st
      simp only [solveBestAux]
      rcases ih (i + 1) (if st.1 < sc then ((sc : Int), (i : Int) + 1) else st) with
        h | ⟨j, hj, h2, h3⟩
      · rw [h]
        by_cases hc : st.1 < sc
        · right
          refine ⟨0, by simp, ?_, ?_⟩
          · rw [if_pos hc]; simp
          · rw [if_pos hc]; simp
        · left
          rw [if_neg hc]
      · right
        refine ⟨j + 1, by simpa using Nat.succ_lt_succ hj, ?_, ?_⟩
        · rw [h2]; push_cast; ring
        · simpa using h3

/-- When the tracked best score is positive, `best_idx` is `i + 1` for a
candidate `i` whose score equals the tracked best. -/
theorem solveBest_idx (scores : List Int) (h : 0 < (solveBest scores).1) :
    ∃ i, i < scores.length ∧ (solveBest scores).2 = (i : Int) + 1 ∧
      scores.getD i 0 = (solveBest scores).1 := by
  rcases solveBestAux_idx scores 0 (0, -1) with h0 | ⟨j, hj, h2, h3⟩
  · rw [solveBest] at h
    rw [h0] at h
    exact absurd h (by simp)
  · exact ⟨j, hj, by simpa using h2, h3⟩

theorem rankScores_perm (avgs : List ℚ) : (rankScores avgs).Perm (scorePairs avgs) :=
  List.perm_insertionSort scoreDescRel (scorePairs avgs)

theorem rankScores_sorted (avgs : List ℚ) :
    List.Sorted scoreDescRel (rankScores avgs) :=
  List.sorted_insertionSort scoreDescRel (scorePairs avgs)

theorem scorePairs_length (avgs : List ℚ) :
    (scorePairs avgs).length = avgs.length := by
  simp [scorePairs]

theorem rankScores_head_mem (avgs : List ℚ) (h : avgs ≠ []) :
    (rankScores avgs).headD (0, 0) ∈ scorePairs avgs := by
  have hlen : (rankScores avgs).length = avgs.length := by
    simpa [scorePairs_length] using (rankScores_perm avgs).length_eq
  have hne : rankScores avgs ≠ [] := by
    intro hnil
    apply h
    have : avgs.length = 0 := by simpa [hnil] using hlen.symm
    exact List.length_eq_zero.mp this
  obtain ⟨a, t, hcons⟩ := List.exists_cons_of_ne_nil hne
  have : (rankScores avgs).headD (0, 0) ∈ rankScores avgs := by
    rw [hcons]; simp
  exact (rankScores_perm avgs).mem_iff.mp this

theorem rankScores_head_max (avgs : List ℚ) :
    ∀ p ∈ scorePairs avgs, p.2 ≤ ((rankScores avgs).headD (0, 0)).2 := by
  intro p hp
  have hmem : p ∈ rankScores avgs := (rankScores_perm avgs).mem_iff.mpr hp
  rcases hr : rankScores avgs with _ | ⟨a, t⟩
  · rw [hr] at hmem; simp at hmem
  · rw [hr] at hmem
    have hsorted : List.Sorted scoreDescRel (a :: t) := by
      rw [← hr]; exact rankScores_sorted avgs
    rcases List.mem_cons.mp hmem with hpa | hpt
    · subst hpa; simp
    · have := List.rel_of_sorted_cons hsorted p hpt
      simpa [scoreDescRel] using this

theorem sum_map_div (l : List ℚ) (d : ℚ) :
    (l.map (fun x => x / d)).sum = l.sum / d := by
  induction l with
  | nil => simp
  | cons x xs ih => simp [ih, add_div]

theorem softmaxCol_length (e : ℚ → ℚ) (c : List ℚ) :
    (softmaxCol e c).length = c.length := by
  simp [softmaxCol]

theorem softmaxCol_sum (e : ℚ → ℚ) (c : List ℚ) (he : ∀ x, 0 < e x)
    (hc : c ≠ []) : (softmaxCol e c).sum = 1 := by
  have hpos : 0 < (c.map e).sum := by
    apply List.sum_pos
    · intro a ha
      obtain ⟨x, _, hx⟩ := List.mem_map.mp ha
      exact hx ▸ he x
    · simpa using hc
  have hmap : softmaxCol e c = (c.map e).map (fun y => y / (c.map e).sum) := by
    simp [softmaxCol, Function.comp]
  rw [hmap, sum_map_div, div_self (ne_of_gt hpos)]

theorem sum_getD_fin (l : List ℚ) :
    (∑ i : Fin l.length, l.getD i 0) = l.sum := by
  induction l with
  | nil => simp
  | cons x xs ih =>
      rw [show (x :: xs).length = xs.length + 1 from rfl, Fin.sum_univ_succ]
      simp [ih]

theorem sum_getD_of_length (l : List ℚ) (n : Nat) (h : l.length = n) :
    (∑ i : Fin n, l.getD i 0) = l.sum := by
  subst h; exact sum_getD_fin l

theorem sum_fin_list_swap (n : Nat) (cols : List (List ℚ))
    (f : List ℚ → Fin n → ℚ) :
    (∑ i : Fin n, (cols.map (fun c => f c i)).sum)
      = (cols.map (fun c => ∑ i : Fin n, f c i)).sum := by
  induction cols with
  | nil => simp
  | cons c cs ih => simp [Finset.sum_add_distrib, ih]

theorem sum_map_one (cols : List (List ℚ)) :
    (cols.map (fun _ => (1 : ℚ))).sum = (cols.length : ℚ) := by
  induction cols with
  | nil => simp
  | cons c cs ih => simp [ih, add_comm]

/-- The Scorer's averaged win-probabilities over any single solve call sum
to exactly 1. -/
theorem avgProbs_sum (e : ℚ → ℚ) (n : Nat) (cols : List (List ℚ))
    (he : ∀ x, 0 < e x) (hn : 0 < n) (hcols : cols ≠ [])
    (hlen : ∀ c ∈ cols, c.length = n) :
    (avgProbs e n cols).sum = 1 := by
  have hL : ((cols.length : ℚ)) ≠ 0 := by
    simpa using fun hnil => hcols (List.length_eq_zero.mp hnil)
  unfold avgProbs
  rw [List.sum_ofFn, ← Finset.sum_div,
    sum_fin_list_swap n cols (fun c i => (softmaxCol e c).getD i 0)]
  have hcong : cols.map (fun c => ∑ i : Fin n, (softmaxCol e c).getD i 0)
      = cols.map (fun _ => (1 : ℚ)) := by
    apply List.map_congr_left
    intro c hc
    have hlc : (softmaxCol e c).length = n := by
      rw [softmaxCol_length]; exact hlen c hc
    rw [sum_getD_of_length _ n hlc]
    apply softmaxCol_sum e c he
    intro hnil
    have hc0 : c.length = n := hlen c hc
    rw [hnil] at hc0
    simp only [List.length_nil] at hc0
    omega
  rw [hcong, sum_map_one, div_self hL]

theorem retroLabelOne_goodLabel (Q : String) (k : Nat) (t : String)
    (m : Metadata) (h : GoodLabel m) : GoodLabel (retroLabelOne Q k t m) := by
  unfold retroLabelOne
  split_ifs with h1 h2
  · exact h
  · intro hs
    exfalso
    have h1' : m.correct_answer = none := not_not.mp h1
    have hlab := h hs
    rw [h1'] at hlab
    cases hlab
  · exact h

theorem autoLabelWithClip_core_fields (m : Metadata) (avgs : List ℚ) (t : String) :
    (autoLabelWithClip m avgs t).1.success = m.success ∧
    (autoLabelWithClip m avgs t).1.button_clicked = m.button_clicked ∧
    (autoLabelWithClip m avgs t).1.question = m.question := by
  simp only [autoLabelWithClip]
  split_ifs <;> simp

theorem recordAttempt_counterInv (question : String) (b : Nat) (success : Bool)
    (avgs : List ℚ) (ts iso : String) (now : Int) (se : Bool) (st : Store)
    (h : CounterInv st.stats) :
    CounterInv (recordAttempt question b success avgs ts iso now se st).stats := by
  obtain ⟨h1, h2, h3⟩ := recordAttempt_counters question b success avgs ts iso now se st
  unfold CounterInv at *
  rw [h1, h2, h3]
  cases success <;> simp <;> omega

theorem recordMany_counterInv :
    ∀ (calls : List CallSpec) (st : Store), CounterInv st.stats →
      CounterInv (recordMany calls st).stats
  | [], _, h => h
  | c :: cs, st, h =>
      recordMany_counterInv cs _
        (recordAttempt_counterInv c.question c.button_clicked c.success c.avgs
          c.ts c.iso c.now c.scriptExists st h)

/-! ## Claims -/

/-- C3: an attempt whose `correct_answer` is already set is untouched by the
Retroactive Labeler's scan, whatever candidate label the pass carries
(first-writer-wins): the per-record step returns the record unchanged, and
hence so does the pass over the failure partition. -/
theorem claim_c3_first_writer_wins (Q : String) (k v : Nat) (t : String)
    (m : Metadata) (h : m.correct_answer = some v) :
    retroLabelOne Q k t m = m ∧ autoLabelFromSuccess Q k t [m] = [m] := by
  have h1 : retroLabelOne Q k t m = m := by
    unfold retroLabelOne
    rw [if_pos (by simp [h])]
  exact ⟨h1, by simp [autoLabelFromSuccess, h1]⟩

/-- Witness for C3: a labeled failure on question `Cherry` holding answer 1
keeps its label even when a matching success with a different answer 2 is
retro-propagated. -/
theorem claim_c3_witness :
    retroLabelOne "cherry" 2 "t1" { exampleMeta with correct_answer := some 1 }
      = { exampleMeta with correct_answer := some 1 } :=
  (claim_c3_first_writer_wins "cherry" 2 1 "t1"
    { exampleMeta with correct_answer := some 1 } rfl).1

/-- C4: the Training Trigger launches only when at least 20 labels
accumulated since the last training and, if a last-training timestamp
exists, at least one hour (3600 s) has elapsed; with 19 or fewer labels, or
less than an hour elapsed, nothing happens and the stats are unchanged.
When it launches, `labels_since_training` resets to 0 and the timestamp and
training count are updated immediately; `checkAutoTraining` takes no
job-outcome input, so none of this depends on the detached job's fate. -/
theorem claim_c4_training_trigger (now : Int) (se : Bool) (s : Stats) :
    ((checkAutoTraining now se s).2 = true →
        20 ≤ s.labels_since_training ∧
        (∀ t, s.last_training = some t → 3600 ≤ now - t) ∧
        (checkAutoTraining now se s).1.labels_since_training = 0 ∧
        (checkAutoTraining now se s).1.last_training = some now ∧
        (checkAutoTraining now se s).1.training_count = s.training_count + 1)
  ∧ (s.labels_since_training ≤ 19 → checkAutoTraining now se s = (s, false))
  ∧ (∀ t, s.last_training = some t → now - t < 3600 →
      checkAutoTraining now se s = (s, false))
  ∧ (20 ≤ s.labels_since_training →
      (s.last_training = none ∨ ∃ t, s.last_training = some t ∧ 3600 ≤ now - t) →
      se = true → (checkAutoTraining now se s).2 = true) := by
  by_cases h1 : s.labels_since_training < 20
  · refine ⟨?_, ?_, ?_, ?_⟩
    · intro h2; rw [checkAutoTraining, if_pos h1] at h2; simp at h2
    · intro _; rw [checkAutoTraining, if_pos h1]
    · intro t _ _; rw [checkAutoTraining, if_pos h1]
    · intro h2; omega
  · cases hlt : s.last_training with
    | none =>
        cases se with
        | false =>
            simp [checkAutoTraining, triggerBackgroundTraining, hlt, h1] <;> omega
        | true =>
            simp [checkAutoTraining, triggerBackgroundTraining, hlt, h1] <;> omega
    | some t0 =>
        by_cases h3 : now - t0 < 3600
        · refine ⟨?_, ?_, ?_, ?_⟩
          · intro h2
            rw [checkAutoTraining, if_neg h1] at h2
            simp only [hlt, if_pos h3] at h2
            simp at h2
          · intro h2; omega
          · intro t ht _
            rw [checkAutoTraining, if_neg h1]
            simp [hlt, h3]
          · intro _ h4 _
            rcases h4 with h4 | ⟨t, ht, hd⟩
            · cases h4
            · have hte : t0 = t := by injection ht
              subst hte
              exact absurd hd (by omega)
        · cases se with
          | false =>
              simp [checkAutoTraining, triggerBackgroundTraining, hlt, h1, h3] <;> omega
          | true =>
              simp [checkAutoTraining, triggerBackgroundTraining, hlt, h1, h3] <;> omega

/-- Witness for C4: with 20 fresh labels and no prior training, the trigger
fires and resets the counter; with 19 it does not. -/
theorem claim_c4_witness :
    (checkAutoTraining 5000 true { initialStats with labels_since_training := 20 }).2
        = true
  ∧ (checkAutoTraining 5000 true
      { initialStats with labels_since_training := 20 }).1.labels_since_training = 0
  ∧ checkAutoTraining 5000 true { initialStats with labels_since_training := 19 }
        = ({ initialStats with labels_since_training := 19 }, false) := by
  have h := claim_c4_training_trigger 5000 true
    { initialStats with labels_since_training := 20 }
  have hfire := h.2.2.2 (by decide) (Or.inl rfl) rfl
  have h19 := (claim_c4_training_trigger 5000 true
    { initialStats with labels_since_training := 19 }).2.1 (by decide)
  exact ⟨hfire, (h.1 hfire).2.2.1, h19⟩

/-- C5: under smart fallback, a failure attributed to a variant increments
that variant's consecutive-failure counter, a success resets it, and when
the active variant's counter has reached the threshold the next
determination switches to the other variant and zeroes the switched-away
counter.  Concretely, from active `finetuned` with both counters zero, five
straight failures followed by a determination yield active `base` with the
`finetuned` counter reset to 0. -/
theorem claim_c5_smart_fallback (thr : Nat) (cfg : Bool) (s : FallbackState) :
    (recordCaptchaResult false Variant.finetuned s
        = { s with finetunedFailures := s.finetunedFailures + 1 })
  ∧ (recordCaptchaResult false Variant.base s
        = { s with baseFailures := s.baseFailures + 1 })
  ∧ (recordCaptchaResult true Variant.finetuned s = { s with finetunedFailures := 0 })
  ∧ (recordCaptchaResult true Variant.base s = { s with baseFailures := 0 })
  ∧ (s.current = some Variant.finetuned → thr ≤ s.finetunedFailures →
      determineCaptchaModel "smart_fallback" thr true cfg s
        = (Variant.base, { s with current := some Variant.base, finetunedFailures := 0 }))
  ∧ (s.current = some Variant.base → thr ≤ s.baseFailures →
      determineCaptchaModel "smart_fallback" thr true cfg s
        = (Variant.finetuned,
            { s with current := some Variant.finetuned, baseFailures := 0 }))
  ∧ determineCaptchaModel "smart_fallback" 5 true false
      (recordCaptchaResult false Variant.finetuned
        (recordCaptchaResult false Variant.finetuned
          (recordCaptchaResult false Variant.finetuned
            (recordCaptchaResult false Variant.finetuned
              (recordCaptchaResult false Variant.finetuned
                ⟨some Variant.finetuned, 0, 0⟩)))))
      = (Variant.base, ⟨some Variant.base, 0, 0⟩) := by
  refine ⟨rfl, rfl, rfl, rfl, ?_, ?_, by decide⟩
  · intro hcur hthr
    simp [determineCaptchaModel, hcur, hthr]
  · intro hcur hthr
    simp [determineCaptchaModel, hcur, hthr]

/-- Witness for C5: the threshold-switch branch applied concretely. -/
theorem claim_c5_witness :
    determineCaptchaModel "smart_fallback" 5 true false
        ⟨some Variant.finetuned, 0, 5⟩
      = (Variant.base, ⟨some Variant.base, 0, 0⟩) :=
  (claim_c5_smart_fallback 5 false ⟨some Variant.finetuned, 0, 5⟩).2.2.2.2.1
    rfl (by decide)

/-- C9 counterexample: two consecutive solve calls perform two fresh model
loads of the same variant — `CLIPModel.from_pretrained` runs unconditionally
inside `_solve_captcha`/`_solve_captcha_on_page`, so the claimed
at-most-one-load property fails there. -/
theorem claim_c9_counterexample :
    solveLoadsAfter 2 = 2 ∧ ¬ solveLoadsAfter 2 ≤ 1 := by decide

/-- C9 amended: only the Immediate Auto-Labeler caches its model (class
attribute), so any number of its calls in one process load at most once —
and never again once cached; each Solver call, by contrast, performs exactly
one fresh load, so `n` consecutive solve calls load `n` times. -/
theorem claim_c9_model_loading :
    (∀ n, clipLoadsAfter n false ≤ 1)
  ∧ (∀ n, clipLoadsAfter n true = 0)
  ∧ (∀ calls, solveLoadsAfter calls = calls) := by
  refine ⟨clipLoadsAfter_le_one, clipLoadsAfter_cached, ?_⟩
  intro calls
  simp [solveLoadsAfter, solveLoadsPerCall]

/-- C1: the Immediate Auto-Labeler writes `correct_answer` if and only if
the top averaged score is at least the random baseline (`100/n`) plus 10
percentage points and the margin over the runner-up is at least 5 points;
when the gate fails the metadata is returned unchanged, even though the
best-guess button exists. -/
theorem claim_c1_immediate_label_gate (m : Metadata) (avgs : List ℚ)
    (t : String) (h : avgs ≠ []) :
    ((autoLabelWithClip m avgs t).2 = true ↔
        (100 / (avgs.length : ℚ) + 10 ≤ ((rankScores avgs).headD (0, 0)).2 ∧
          5 ≤ (if 1 < (rankScores avgs).length
                then ((rankScores avgs).headD (0, 0)).2
                    - ((rankScores avgs).getD 1 (0, 0)).2
                else ((rankScores avgs).headD (0, 0)).2)))
  ∧ ((autoLabelWithClip m avgs t).2 = true →
      (autoLabelWithClip m avgs t).1.correct_answer
        = some ((rankScores avgs).headD (0, 0)).1)
  ∧ ((autoLabelWithClip m avgs t).2 = false →
      (autoLabelWithClip m avgs t).1 = m) := by
  have hne : ¬ avgs.length = 0 := fun h0 => h (List.length_eq_zero.mp h0)
  by_cases hg :
      ((rankScores avgs).headD (0, 0)).2 < 100 / (avgs.length : ℚ) + 10 ∨
        (if 1 < (rankScores avgs).length
          then ((rankScores avgs).headD (0, 0)).2
              - ((rankScores avgs).getD 1 (0, 0)).2
          else ((rankScores avgs).headD (0, 0)).2) < 5
  · have hres : autoLabelWithClip m avgs t = (m, false) := by
      simp only [autoLabelWithClip, if_neg hne, if_pos hg]
    rw [hres]
    refine ⟨?_, ?_, fun _ => rfl⟩
    · constructor
      · intro hfalse
        exact absurd hfalse (by simp)
      · intro hgate
        exfalso
        rcases hg with hg | hg
        · exact absurd hgate.1 (not_le.mpr hg)
        · exact absurd hgate.2 (not_le.mpr hg)
    · intro hfalse
      exact absurd hfalse (by simp)
  · have hres : autoLabelWithClip m avgs t
        = ({ m with
              correct_answer := some ((rankScores avgs).headD (0, 0)).1
              auto_labeled := some true
              auto_label_conf := some ((rankScores avgs).headD (0, 0)).2
              auto_label_tool := some "base-clip-realtime"
              labeled_at := some t }, true) := by
      simp only [autoLabelWithClip, if_neg hne, if_neg hg]
    rw [hres]
    push_neg at hg
    refine ⟨⟨fun _ => ⟨hg.1, hg.2⟩, fun _ => rfl⟩, fun _ => rfl, ?_⟩
    intro hfalse
    exact absurd hfalse (by simp)

/-- Witness for C1: with 4 candidates (baseline 25, gate at 35/5), averaged
scores `[70, 20, 6, 4]` pass the gate and button 1 is written; scores
`[30, 28, 22, 20]` fail it and the metadata is left unchanged. -/
theorem claim_c1_witness :
    (autoLabelWithClip exampleMeta [7/10, 1/5, 3/50, 1/25] "t").2 = true
  ∧ (autoLabelWithClip exampleMeta [7/10, 1/5, 3/50, 1/25] "t").1.correct_answer
      = some 1
  ∧ (autoLabelWithClip exampleMeta [3/10, 7/25, 11/50, 1/5] "t").2 = false
  ∧ (autoLabelWithClip exampleMeta [3/10, 7/25, 11/50, 1/5] "t").1 = exampleMeta := by
  have hrank1 : rankScores [7/10, 1/5, 3/50, 1/25]
      = [(1, (70 : ℚ)), (2, 20), (3, 6), (4, 4)] := by
    norm_num [rankScores, scorePairs, List.insertionSort, List.orderedInsert,
      scoreDescRel, List.range_succ]
  have hrank2 : rankScores [3/10, 7/25, 11/50, 1/5]
      = [(1, (30 : ℚ)), (2, 28), (3, 22), (4, 20)] := by
    norm_num [rankScores, scorePairs, List.insertionSort, List.orderedInsert,
      scoreDescRel, List.range_succ]
  have h1 := claim_c1_immediate_label_gate exampleMeta [7/10, 1/5, 3/50, 1/25] "t"
    (by simp)
  have h2 := claim_c1_immediate_label_gate exampleMeta [3/10, 7/25, 11/50, 1/5] "t"
    (by simp)
  have hw : (autoLabelWithClip exampleMeta [7/10, 1/5, 3/50, 1/25] "t").2 = true :=
    h1.1.mpr (by rw [hrank1]; norm_num)
  have hgf : ¬ (100 / (([3/10, 7/25, 11/50, 1/5] : List ℚ).length : ℚ) + 10
      ≤ ((rankScores [3/10, 7/25, 11/50, 1/5]).headD (0, 0)).2 ∧
        5 ≤ (if 1 < (rankScores [3/10, 7/25, 11/50, 1/5]).length
              then ((rankScores [3/10, 7/25, 11/50, 1/5]).headD (0, 0)).2
                  - ((rankScores [3/10, 7/25, 11/50, 1/5]).getD 1 (0, 0)).2
              else ((rankScores [3/10, 7/25, 11/50, 1/5]).headD (0, 0)).2)) := by
    rw [hrank2]
    norm_num
  have hn : (autoLabelWithClip exampleMeta [3/10, 7/25, 11/50, 1/5] "t").2 = false := by
    cases hb : (autoLabelWithClip exampleMeta [3/10, 7/25, 11/50, 1/5] "t").2 with
    | false => rfl
    | true => exact absurd (h2.1.mp hb) hgf
  refine ⟨hw, ?_, hn, h2.2.2 hn⟩
  rw [h1.2.1 hw, hrank1]
  rfl

/-- C2 counterexample: the Retroactive Labeler writes `correct_answer` (and
`auto_labeled`) into a matching unlabeled failure, but the claimed
`label_source == retroactive-from-success` is never recorded — no code path
writes a `label_source` key at all. -/
theorem claim_c2_counterexample :
    ((autoLabelFromSuccess "cherry" 2 "t1"
        [recordMetadata "cherry" 3 false "ts" "iso"]).headD
          (recordMetadata "x" 0 false "a" "b")).correct_answer = some 2
  ∧ ((autoLabelFromSuccess "cherry" 2 "t1"
        [recordMetadata "cherry" 3 false "ts" "iso"]).headD
          (recordMetadata "x" 0 false "a" "b")).label_source
      ≠ some "retroactive-from-success" := by
  have hres : autoLabelFromSuccess "cherry" 2 "t1"
      [recordMetadata "cherry" 3 false "ts" "iso"]
      = [{ recordMetadata "cherry" 3 false "ts" "iso" with
            correct_answer := some 2
            auto_labeled := some true
            labeled_at := some "t1" }] := by
    simp [autoLabelFromSuccess, retroLabelOne, recordMetadata]
  rw [hres]
  exact ⟨rfl, by simp [recordMetadata]⟩

/-- C2 amended: after a success on question `Q` with chosen index `k`, every
previously-unlabeled failure whose lower-cased and trimmed question equals
that of `Q` gets `correct_answer = k`, `auto_labeled = true` and a
`labeled_at` timestamp (no `label_source` field is written — the code
records the retroactive origin only implicitly); all other failure records
are unchanged, and the pass is the per-record step mapped over the failure
partition. -/
theorem claim_c2_retroactive_amended (Q : String) (k : Nat) (t : String)
    (m : Metadata) :
    (∀ fs : List Metadata,
        autoLabelFromSuccess Q k t fs = fs.map (retroLabelOne Q k t))
  ∧ (m.correct_answer = none → normalizeQ m.question = normalizeQ Q →
      retroLabelOne Q k t m
        = { m with
              correct_answer := some k
              auto_labeled := some true
              labeled_at := some t })
  ∧ (m.correct_answer ≠ none → retroLabelOne Q k t m = m)
  ∧ (m.correct_answer = none → normalizeQ m.question ≠ normalizeQ Q →
      retroLabelOne Q k t m = m) := by
  refine ⟨fun fs => rfl, ?_, ?_, ?_⟩
  · intro h1 h2
    simp [retroLabelOne, h1, h2]
  · intro h1
    simp [retroLabelOne, h1]
  · intro h1 h2
    simp [retroLabelOne, h1, h2]

/-- Witness for C2: a success on `cherry` (button 2) labels the stored
unlabeled failure on `Cherry`. -/
theorem claim_c2_witness :
    retroLabelOne "cherry" 2 "t1" (recordMetadata "cherry" 3 false "ts" "iso")
      = { recordMetadata "cherry" 3 false "ts" "iso" with
            correct_answer := some 2
            auto_labeled := some true
            labeled_at := some "t1" } :=
  (claim_c2_retroactive_amended "cherry" 2 "t1"
    (recordMetadata "cherry" 3 false "ts" "iso")).2.1 rfl rfl

/-- C6 counterexample: at the solve call whose averaged per-candidate
scores are `[0.301, 0.309, 0.2, 0.19]` (a legitimate score vector — it sums
to 1), candidate 2 has the strictly largest exact score, yet the Solver
truncates to integer percentages (`int(avg * 100)`, both top scores become
30) and its `score > best_score` loop picks button 1: the chosen index is
not the argmax of the exact mean scores. -/
theorem claim_c6_counterexample :
    c6Avgs.sum = 1
  ∧ (solveCaptchaOutcome c6Avgs).bestIdx = 1
  ∧ c6Avgs.getD 0 0 < c6Avgs.getD 1 0 := by
  have hs : c6Avgs.map percentScore = [30, 30, 20, 19] := by
    norm_num [c6Avgs, percentScore]
  refine ⟨by norm_num [c6Avgs], ?_, by norm_num [c6Avgs]⟩
  simp only [solveCaptchaOutcome, hs]
  decide

/-- C6 amended: the per-candidate scores are the per-image means over all
paraphrase prompts of the softmax taken across the candidate images and sum
to exactly 1 for every solve call; the candidate the auto-labeler ranks
first is one of the score pairs and attains the maximal exact score.  The
Solver, however, first truncates each score to an integer percentage: its
tracked best score dominates every truncated score, and when positive its
chosen `best_idx` is `i + 1` for a candidate `i` attaining that maximal
truncated score — an argmax of the truncated scores, which on sub-percent
ties may differ from the argmax of the exact scores. -/
theorem claim_c6_scores_amended (e : ℚ → ℚ) (n : Nat) (cols : List (List ℚ))
    (he : ∀ x, 0 < e x) (hn : 0 < n) (hcols : cols ≠ [])
    (hlen : ∀ c ∈ cols, c.length = n) :
    (avgProbs e n cols).sum = 1
  ∧ (rankScores (avgProbs e n cols)).headD (0, 0) ∈ scorePairs (avgProbs e n cols)
  ∧ (∀ p ∈ scorePairs (avgProbs e n cols),
      p.2 ≤ ((rankScores (avgProbs e n cols)).headD (0, 0)).2)
  ∧ (∀ x ∈ (avgProbs e n cols).map percentScore,
      x ≤ (solveBest ((avgProbs e n cols).map percentScore)).1)
  ∧ (0 < (solveBest ((avgProbs e n cols).map percentScore)).1 →
      ∃ i, i < ((avgProbs e n cols).map percentScore).length ∧
        (solveBest ((avgProbs e n cols).map percentScore)).2 = (i : Int) + 1 ∧
        ((avgProbs e n cols).map percentScore).getD i 0
          = (solveBest ((avgProbs e n cols).map percentScore)).1) := by
  have hlenp : (avgProbs e n cols).length = n := by simp [avgProbs]
  have hne : avgProbs e n cols ≠ [] := by
    intro h0
    rw [h0] at hlenp
    simp only [List.length_nil] at hlenp
    omega
  exact ⟨avgProbs_sum e n cols he hn hcols hlen,
    rankScores_head_mem _ hne, rankScores_head_max _, (solveBest_max _).1,
    solveBest_idx _⟩

/-- Witness for C6: one text column of four equal logits; with a positive
abstract `exp` the four scores are each 1/4 and sum to 1, and the ranked
head attains the maximal score. -/
theorem claim_c6_witness :
    (avgProbs (fun _ => (1 : ℚ)) 4 [[0, 0, 0, 0]]).sum = 1
  ∧ (∀ p ∈ scorePairs (avgProbs (fun _ => (1 : ℚ)) 4 [[0, 0, 0, 0]]),
      p.2 ≤ ((rankScores (avgProbs (fun _ => (1 : ℚ)) 4 [[0, 0, 0, 0]])).headD
        (0, 0)).2) := by
  have h := claim_c6_scores_amended (fun _ => (1 : ℚ)) 4 [[0, 0, 0, 0]]
    (fun _ => one_pos) (by decide) (by decide) (by decide)
  exact ⟨h.1, h.2.2.1⟩

/-- C7 counterexample: at averaged probabilities giving integer scores
`[37, 27, 20, 16]` the claimed acceptance gate (`best >= 35` and
`margin >= 5`) passes, yet the solver flags the result as low-confidence
(its warning threshold is 40, not 35) — and the source has no
`declined_confidently` flag at all, only logged warnings. -/
theorem claim_c7_counterexample :
    specSolverAccepts (solveCaptchaOutcome c7Avgs).bestScore
        (solveCaptchaOutcome c7Avgs).margin = true
  ∧ (solveCaptchaOutcome c7Avgs).lowConfidence = true
  ∧ (solveCaptchaOutcome c7Avgs).bestScore = 37
  ∧ (solveCaptchaOutcome c7Avgs).margin = 10 := by
  have hs : c7Avgs.map percentScore = [37, 27, 20, 16] := by
    norm_num [c7Avgs, percentScore]
  have ho : solveCaptchaOutcome c7Avgs
      = { bestScore := 37, bestIdx := 1, margin := 10
          lowConfidence := true, smallMargin := false } := by
    simp only [solveCaptchaOutcome, hs]
    decide
  rw [ho]
  decide

/-- C7 amended: the solver always acts on the top-scoring candidate (the
tracked best score dominates every candidate score); it has no
accept/decline flag — its only confidence signals are a low-confidence
warning fired exactly when the best integer score is below 40 and a
small-margin warning fired exactly when the margin is below 8.  The
`baseline + 10 / margin >= 5` gate exists only in the Immediate
Auto-Labeler. -/
theorem claim_c7_solver_behavior (avgs : List ℚ) :
    ((solveCaptchaOutcome avgs).lowConfidence = true
        ↔ (solveCaptchaOutcome avgs).bestScore < 40)
  ∧ ((solveCaptchaOutcome avgs).smallMargin = true
        ↔ (solveCaptchaOutcome avgs).margin < 8)
  ∧ (∀ x ∈ avgs.map percentScore, x ≤ (solveCaptchaOutcome avgs).bestScore)
  ∧ 0 ≤ (solveCaptchaOutcome avgs).bestScore := by
  refine ⟨?_, ?_, ?_, ?_⟩
  · simp [solveCaptchaOutcome]
  · simp [solveCaptchaOutcome]
  · simpa [solveCaptchaOutcome] using (solveBest_max (avgs.map percentScore)).1
  · simpa [solveCaptchaOutcome] using (solveBest_max (avgs.map percentScore)).2

/-- C8: at record time a success gets `correct_answer = chosen_index` and a
failure gets `None`; and the invariant "every success attempt carries its
clicked button as `correct_answer`" is preserved by every `record_attempt`
call, labeling side effects included. -/
theorem claim_c8_success_label_invariant (question : String) (b : Nat)
    (success : Bool) (avgs : List ℚ) (ts iso : String) (now : Int) (se : Bool)
    (st : Store) (h : SuccInv st) :
    (recordMetadata question b true ts iso).correct_answer = some b
  ∧ (recordMetadata question b false ts iso).correct_answer = none
  ∧ SuccInv (recordAttempt question b success avgs ts iso now se st) := by
  refine ⟨rfl, rfl, ?_⟩
  obtain ⟨hs, hf⟩ := h
  cases success with
  | true =>
      constructor
      · intro m hm
        simp only [recordAttempt, if_pos] at hm
        rcases List.mem_append.mp hm with hm | hm
        · exact hs m hm
        · have hme : m = recordMetadata question b true ts iso := by
            simpa using hm
          subst hme
          intro _
          rfl
      · intro m hm
        simp only [recordAttempt, if_pos] at hm
        obtain ⟨m0, hm0, rfl⟩ := List.mem_map.mp hm
        exact retroLabelOne_goodLabel _ _ _ _ (hf m0 hm0)
  | false =>
      constructor
      · intro m hm
        simp only [recordAttempt] at hm
        exact hs m hm
      · intro m hm
        simp only [recordAttempt] at hm
        rcases List.mem_append.mp hm with hm | hm
        · exact hf m hm
        · have hme : m = (autoLabelWithClip
              (recordMetadata question b false ts iso) avgs iso).1 := by
            simpa using hm
          subst hme
          intro habs
          have hsuc := (autoLabelWithClip_core_fields
            (recordMetadata question b false ts iso) avgs iso).1
          rw [habs] at hsuc
          cases hsuc

/-- Witness for C8: recording a success on the empty store yields a store
satisfying the invariant and a self-labeled success record. -/
theorem claim_c8_witness :
    (recordMetadata "Cherry" 2 true "ts" "iso").correct_answer = some 2
  ∧ SuccInv (recordAttempt "Cherry" 2 true [] "ts" "iso" 0 false
      ⟨[], [], initialStats⟩) := by
  have h := claim_c8_success_label_invariant "Cherry" 2 true [] "ts" "iso" 0 false
    ⟨[], [], initialStats⟩ (by decide)
  exact ⟨h.1, h.2.2⟩

/-- C10: every `record_attempt` call increments `total_attempts` by one and
exactly the outcome-matching one of `total_successes`/`total_failures` by
one (the labeling and training-trigger side effects never touch these
three), so the counter invariant is preserved by every call and by every
sequence of calls. -/
theorem claim_c10_counters (question : String) (b : Nat) (success : Bool)
    (avgs : List ℚ) (ts iso : String) (now : Int) (se : Bool) (st : Store) :
    (recordAttempt question b success avgs ts iso now se st).stats.total_attempts
        = st.stats.total_attempts + 1
  ∧ (success = true →
      (recordAttempt question b success avgs ts iso now se st).stats.total_successes
          = st.stats.total_successes + 1
        ∧ (recordAttempt question b success avgs ts iso now se st).stats.total_failures
          = st.stats.total_failures)
  ∧ (success = false →
      (recordAttempt question b success avgs ts iso now se st).stats.total_failures
          = st.stats.total_failures + 1
        ∧ (recordAttempt question b success avgs ts iso now se st).stats.total_successes
          = st.stats.total_successes)
  ∧ (CounterInv st.stats →
      CounterInv (recordAttempt question b success avgs ts iso now se st).stats)
  ∧ (∀ calls : List CallSpec, CounterInv st.stats →
      CounterInv (recordMany calls st).stats) := by
  obtain ⟨h1, h2, h3⟩ := recordAttempt_counters question b success avgs ts iso now se st
  refine ⟨h1, ?_, ?_, recordAttempt_counterInv question b success avgs ts iso now se st,
    fun calls => recordMany_counterInv calls st⟩
  · intro hsucc
    subst hsucc
    simp only [if_pos] at h2 h3
    simpa using ⟨h2, h3⟩
  · intro hsucc
    subst hsucc
    simp only [Bool.false_eq_true, if_neg] at h2 h3
    simpa using ⟨h3, h2⟩

/-- Witness for C10: a concrete failure record on the empty store bumps
`total_attempts` and `total_failures` and keeps the invariant. -/
theorem claim_c10_witness :
    (recordAttempt "Cherry" 1 false [] "ts" "iso" 0 false
        ⟨[], [], initialStats⟩).stats.total_attempts = 1
  ∧ (recordAttempt "Cherry" 1 false [] "ts" "iso" 0 false
        ⟨[], [], initialStats⟩).stats.total_failures = 1
  ∧ CounterInv (recordAttempt "Cherry" 1 false [] "ts" "iso" 0 false
        ⟨[], [], initialStats⟩).stats := by
  have h := claim_c10_counters "Cherry" 1 false [] "ts" "iso" 0 false
    ⟨[], [], initialStats⟩
  exact ⟨h.1, (h.2.2.1 rfl).1, h.2.2.2.1 (by decide)⟩

end AutoStep
